import Mathlib

/-!
Verification of the directive-driven date/time/offset formatter and parser
(strftime/strptime style codec with locale-aware names).

The per-directive format/parse functions, the locale tables and the
`UtcOffset` type are translated from `src/format/date.rs`,
`src/format/language.rs` and `src/utc_offset.rs`.  The digit-consumer
primitives, the `ParsedItems` accumulator, the `Padding`/`Sign`/`Weekday`
types and the directive engine live in parts of the repository that are not
provided; those are modelled from the specification and carry a
`Modelled from the spec:` doc comment.

Input text is modelled as `List Char`; a parse function takes the
accumulator and the remaining input and returns either a typed error or the
updated accumulator together with the rest of the input (the Rust code
mutates both in place and returns `Result<(), ParseError>`; on error the
Rust caller aborts the whole parse, so no accumulator survives a failure in
either model).
-/

namespace Time

/-- Modelled from the spec: padding is enumerated Zero / Space / NoPad
("None means no minimum width/fill"); each directive declares a default and
an explicit override in the template takes precedence. -/
inductive Padding where
  | Zero
  | Space
  | NoPad
deriving Repr, DecidableEq

/-- Modelled from the spec: "resolve(explicit: Option<Padding>, default:
Padding) -> Padding": use the explicit padding when the template supplied
one, otherwise the directive's hard-coded default.  This is what the source
writes as `padding.default_to(Padding::Zero)` etc. -/
def Padding.resolve (explicit : Option Padding) (dflt : Padding) : Padding :=
  explicit.getD dflt

/-- Modelled from the spec: "Sign — enumerated {Positive, Negative};
multiplies a parsed magnitude". -/
inductive Sign where
  | Positive
  | Negative
deriving Repr, DecidableEq

/-- Sign applied to a parsed magnitude (the source's `sign * v`). -/
def Sign.mul (sg : Sign) (v : Int) : Int :=
  match sg with
  | .Positive => v
  | .Negative => -v

/-- Error values surfaced by parsing, from the spec's enumeration (which it
marks as non-exhaustive): the offset and literal-mismatch variants are
modelled for the directives/engine whose source is not provided. -/
inductive ParseError where
  | InvalidDayOfWeek
  | InvalidMonth
  | InvalidYear
  | InvalidDayOfMonth
  | InvalidDayOfYear
  | InvalidWeek
  | InsufficientInformation
  | InvalidOffset
  | UnexpectedCharacter
deriving Repr, DecidableEq

/-- Modelled from the spec: "Weekday — enumerated {Monday..Sunday}, fixed
Monday-first canonical ordering". -/
inductive Weekday where
  | Monday
  | Tuesday
  | Wednesday
  | Thursday
  | Friday
  | Saturday
  | Sunday
deriving Repr, DecidableEq

/-- Modelled from the spec: zero-indexed number of days from Monday
(Monday = 0 .. Sunday = 6), the canonical Monday-first index. -/
def Weekday.number_days_from_monday (d : Weekday) : Nat :=
  match d with
  | .Monday => 0
  | .Tuesday => 1
  | .Wednesday => 2
  | .Thursday => 3
  | .Friday => 4
  | .Saturday => 5
  | .Sunday => 6

/-- Modelled from the spec: the ISO numbering view, Monday = 1 .. Sunday = 7. -/
def Weekday.iso_weekday_number (d : Weekday) : Nat :=
  d.number_days_from_monday + 1

/-- Modelled from the spec: the US numbering view, Sunday = 0 .. Saturday = 6. -/
def Weekday.number_days_from_sunday (d : Weekday) : Nat :=
  d.iso_weekday_number % 7

/-- An offset from UTC, from `src/utc_offset.rs`: the number of seconds
offset from UTC (positive is east, negative is west). -/
structure UtcOffset where
  seconds : Int
deriving Repr, DecidableEq

/-- `UtcOffset::seconds` from `src/utc_offset.rs`. -/
def UtcOffset.ofSeconds (seconds : Int) : UtcOffset :=
  { seconds := seconds }

/-- Modelled from the spec: the opaque date value, consumed through pure
accessor functions; only the accessors the embedded format functions read
are included (year and weekday). -/
structure Date where
  year : Int
  weekday : Weekday
deriving Repr, DecidableEq

/-- Modelled from the spec: the Parsed-Items accumulator, "a record of
optional fields, each independently present/absent" — year, week-based
year, month, day of month, ordinal day of year, ISO week, Sunday-based
week, Monday-based week, weekday and UTC offset (the time-of-day fields,
owned by directives not embedded here, are omitted).  Month/day/ISO-week
are `Option<NonZeroU8>` and ordinal day `Option<NonZeroU16>` in the source;
they are modelled as `Option Nat` with the non-zero constructor modelled
explicitly (`nonZeroNew`). -/
structure ParsedItems where
  year : Option Int := none
  week_based_year : Option Int := none
  month : Option Nat := none
  day : Option Nat := none
  ordinal_day : Option Nat := none
  iso_week : Option Nat := none
  sunday_week : Option Nat := none
  monday_week : Option Nat := none
  weekday : Option Weekday := none
  offset : Option UtcOffset := none
deriving Repr, DecidableEq

/-- The empty accumulator created at the start of a parse (`ParsedItems::new`). -/
def ParsedItems.new : ParsedItems := {}

/-- `NonZeroU8::new` / `NonZeroU16::new`: zero maps to `none`, anything
else to `some`. -/
def nonZeroNew (n : Nat) : Option Nat :=
  if n = 0 then none else some n

/-- Result type of a parse function: a typed error, or the updated
accumulator with the rest of the input. -/
def ParseResult (α : Type) : Type := Except ParseError α

/-- The fill character of a padding mode, if any. -/
def Padding.fillChar (p : Padding) : Option Char :=
  match p with
  | .Zero => some '0'
  | .Space => some ' '
  | .NoPad => none

/-- Take up to `n` leading copies of the character `c`, returning how many
were taken and the rest of the input. -/
def takeCharUpTo (c : Char) : Nat → List Char → Nat × List Char
  | 0, s => (0, s)
  | _ + 1, [] => (0, [])
  | n + 1, x :: xs =>
    if x = c then
      let (k, r) := takeCharUpTo c n xs
      (k + 1, r)
    else (0, x :: xs)

/-- Modelled from the spec: "consume_padding(width): skip up to `width`
copies of the active fill character (only meaningful for Zero/Space; None
skips nothing)"; returns the number of characters skipped. -/
def consume_padding (p : Padding) (width : Nat) (s : List Char) : Nat × List Char :=
  match p.fillChar with
  | none => (0, s)
  | some c => takeCharUpTo c width s

/-- Take up to `max` leading decimal-digit characters, stopping at the
first non-digit, returning the digits taken and the rest. -/
def takeDigits : Nat → List Char → List Char × List Char
  | 0, s => ([], s)
  | _ + 1, [] => ([], [])
  | n + 1, c :: cs =>
    if c.isDigit then
      let (d, r) := takeDigits n cs
      (c :: d, r)
    else ([], c :: cs)

/-- Numeric value of a decimal digit character. -/
def digitVal (c : Char) : Nat := c.toNat - '0'.toNat

/-- Value of a list of decimal digit characters, most significant first. -/
def digitsToNat (l : List Char) : Nat :=
  l.foldl (fun a c => a * 10 + digitVal c) 0

/-- Modelled from the spec: "consume_digits(min..=max): greedily take
between `min` and `max` available digit characters (stopping at the first
non-digit or at `max`), reject if fewer than `min` digits were available". -/
def try_consume_digits (lo hi : Nat) (s : List Char) : Option (Nat × List Char) :=
  let (d, r) := takeDigits hi s
  if lo ≤ d.length then some (digitsToNat d, r) else none

/-- Modelled from the spec: "consume_exact_digits(n): require exactly `n`
decimal digits; no partial match", where space padding consumed first may
stand in for missing leading digits (`" 5"` parses as day 5 under Space
padding) and NoPad means no minimum width. -/
def try_consume_exact_digits (n : Nat) (p : Padding) (s : List Char) : Option (Nat × List Char) :=
  match p with
  | .Space =>
    let (k, s1) := consume_padding .Space (n - 1) s
    try_consume_digits (n - k) (n - k) s1
  | .Zero => try_consume_digits n n s
  | .NoPad => try_consume_digits 1 n s

/-- Modelled from the spec: "consume_exact_digits_in_range(n, lo..=hi)": as
`consume_exact_digits`, additionally rejecting values outside the inclusive
range. -/
def try_consume_exact_digits_in_range (n lo hi : Nat) (p : Padding) (s : List Char) :
    Option (Nat × List Char) :=
  match try_consume_exact_digits n p s with
  | some (v, r) => if lo ≤ v ∧ v ≤ hi then some (v, r) else none
  | none => none

/-- Modelled from the spec: "consume_digits_in_range(width_range, lo..=hi)":
variable-width digit consumption plus range validation (the magnitude is
parsed from digits alone, so it is non-negative; the caller applies the
sign afterwards). -/
def try_consume_digits_in_range (dlo dhi : Nat) (lo hi : Int) (s : List Char) :
    Option (Nat × List Char) :=
  match try_consume_digits dlo dhi s with
  | some (v, r) => if lo ≤ (v : Int) ∧ (v : Int) ≤ hi then some (v, r) else none
  | none => none

/-- Modelled from the spec: "consume_first_match(candidates)": try each
candidate's literal text as a prefix of the remaining input, in the given
order, advancing past the first one that matches. -/
def try_consume_first_match {α : Type} : List (String × α) → List Char → Option (α × List Char)
  | [], _ => none
  | (t, v) :: rest, s =>
    if t.data.isPrefixOf s then some (v, s.drop t.data.length)
    else try_consume_first_match rest s

/-- Languages used in formatting, from `src/format/language.rs`. -/
inductive Language where
  | en
  | es
  | fr
deriving Repr, DecidableEq

/-- Month names for the given language (`Language::month_names`). -/
def Language.month_names (l : Language) : List String :=
  match l with
  | .en => ["January", "February", "March", "April", "May", "June", "July",
      "August", "September", "October", "November", "December"]
  | .es => ["enero", "febrero", "marzo", "abril", "mayo", "junio", "julio",
      "agosto", "septiembre", "octubre", "noviembre", "diciembre"]
  | .fr => ["janvier", "février", "mars", "avril", "mai", "juin", "juillet",
      "août", "septembre", "octobre", "novembre", "décembre"]

/-- Abbreviated month names for the given language
(`Language::short_month_names`). -/
def Language.short_month_names (l : Language) : List String :=
  match l with
  | .en => ["Jan", "Feb", "Mar", "Apr", "May", "June", "July", "Aug", "Sept",
      "Oct", "Nov", "Dec"]
  | .es => ["enero", "feb", "marzo", "abr", "mayo", "jun", "jul", "agosto",
      "set", "oct", "nov", "dic"]
  | .fr => ["janv", "févr", "mars", "avril", "mai", "juin", "juil", "août",
      "sept", "oct", "nov", "déc"]

/-- Names of days of the week for the given language, starting with Monday
(`Language::week_days`). -/
def Language.week_days (l : Language) : List String :=
  match l with
  | .en => ["Monday", "Tuesday", "Wednesday", "Thursday", "Friday",
      "Saturday", "Sunday"]
  | .es => ["lunes", "martes", "miércoles", "jueves", "viernes", "sábado",
      "domingo"]
  | .fr => ["lundi", "mardi", "mercredi", "jeudi", "vendredi", "samedi",
      "dimanche"]

/-- Abbreviated names of days of the week for the given language, starting
with Monday (`Language::short_week_days`). -/
def Language.short_week_days (l : Language) : List String :=
  match l with
  | .en => ["Mon", "Tue", "Wed", "Thu", "Fri", "Sat", "Sun"]
  | .es => ["Lu", "Ma", "Mi", "Ju", "Vi", "Sa", "Do"]
  | .fr => ["lun", "mar", "mer", "jeu", "ven", "sam", "dim"]

/-- Array of weekdays that corresponds to the localized values, from
`src/format/date.rs` (`WEEKDAYS`): the Monday-first canonical sequence. -/
def WEEKDAYS : List Weekday :=
  [.Monday, .Tuesday, .Wednesday, .Thursday, .Friday, .Saturday, .Sunday]

/-- `parse_a` from `src/format/date.rs`: short day of the week; matches a
locale short weekday name and stores the zipped weekday. -/
def parse_a (items : ParsedItems) (s : List Char) (language : Language) :
    ParseResult (ParsedItems × List Char) :=
  match try_consume_first_match (language.short_week_days.zip WEEKDAYS) s with
  | some (w, r) => .ok ({ items with weekday := some w }, r)
  | none => .error .InvalidDayOfWeek

/-- `parse_A` from `src/format/date.rs`: full day of the week; matches a
locale full weekday name and stores the zipped weekday. -/
def parse_A (items : ParsedItems) (s : List Char) (language : Language) :
    ParseResult (ParsedItems × List Char) :=
  match try_consume_first_match (language.week_days.zip WEEKDAYS) s with
  | some (w, r) => .ok ({ items with weekday := some w }, r)
  | none => .error .InvalidDayOfWeek

/-- The list `1, 2, 3, ...` zipped against the month-name table: the value
stored for the name at index `i` is `i + 1` (the source zips the names with
the unbounded iterator `1..`; zipping truncates to the table length). -/
def monthCandidates (names : List String) : List (String × Nat) :=
  names.zip ((List.range names.length).map (· + 1))

/-- `parse_b` from `src/format/date.rs`: short month name; matches a locale
short month name and stores `NonZeroU8::new` of the zipped value. -/
def parse_b (items : ParsedItems) (s : List Char) (language : Language) :
    ParseResult (ParsedItems × List Char) :=
  match try_consume_first_match (monthCandidates language.short_month_names) s with
  | some (m, r) => .ok ({ items with month := nonZeroNew m }, r)
  | none => .error .InvalidMonth

/-- `parse_B` from `src/format/date.rs`: full month name; matches a locale
full month name and stores `NonZeroU8::new` of the zipped value. -/
def parse_B (items : ParsedItems) (s : List Char) (language : Language) :
    ParseResult (ParsedItems × List Char) :=
  match try_consume_first_match (monthCandidates language.month_names) s with
  | some (m, r) => .ok ({ items with month := nonZeroNew m }, r)
  | none => .error .InvalidMonth

/-- `parse_C` from `src/format/date.rs`: century (year divided by 100,
truncated): consume up to one fill character of zero-default padding, then
`(2 - padding_length)..=(3 - padding_length)` digits, and set
`year = parsed * 100 + existing_year.rem_euclid(100)` where a missing year
defaults to 0. -/
def parse_C (items : ParsedItems) (s : List Char) (padding : Option Padding) :
    ParseResult (ParsedItems × List Char) :=
  let (padding_length, s1) := consume_padding (Padding.resolve padding .Zero) 1 s
  match try_consume_digits (2 - padding_length) (3 - padding_length) s1 with
  | some (v, r) =>
    .ok ({ items with
            year := some ((v : Int) * 100 + Int.emod ((items.year.getD 0)) 100) }, r)
  | none => .error .InvalidYear

/-- `parse_d` from `src/format/date.rs`: day of the month, zero-padded:
exactly two digits (zero-default padding) converted through
`NonZeroU8::new`. -/
def parse_d (items : ParsedItems) (s : List Char) (padding : Option Padding) :
    ParseResult (ParsedItems × List Char) :=
  match try_consume_exact_digits 2 (Padding.resolve padding .Zero) s with
  | some (v, r) => .ok ({ items with day := nonZeroNew v }, r)
  | none => .error .InvalidDayOfMonth

/-- `parse_e` from `src/format/date.rs`: day of the month, space-padded:
delegates to `parse_d` with a Space default. -/
def parse_e (items : ParsedItems) (s : List Char) (padding : Option Padding) :
    ParseResult (ParsedItems × List Char) :=
  parse_d items s (some (Padding.resolve padding .Space))

/-- `parse_g` from `src/format/date.rs`: week-based year, last two digits:
`week_based_year = existing / 100 * 100 + parsed` with exactly two digits
(zero-default padding); a missing value defaults to 0 and `/` truncates. -/
def parse_g (items : ParsedItems) (s : List Char) (padding : Option Padding) :
    ParseResult (ParsedItems × List Char) :=
  match try_consume_exact_digits 2 (Padding.resolve padding .Zero) s with
  | some (v, r) =>
    .ok ({ items with
            week_based_year :=
              some (Int.tdiv (items.week_based_year.getD 0) 100 * 100 + (v : Int)) }, r)
  | none => .error .InvalidYear

/-- `parse_G` from `src/format/date.rs`: full week-based year: an optional
`+`/`-` sign (defaulting to positive), up to four fill characters of
zero-default padding, then 1 to 6 digits range-checked against
±100000 and multiplied by the sign. -/
def parse_G (items : ParsedItems) (s : List Char) (padding : Option Padding) :
    ParseResult (ParsedItems × List Char) :=
  let (sign, s1) :=
    match try_consume_first_match [("+", Sign.Positive), ("-", Sign.Negative)] s with
    | some (sg, r) => (sg, r)
    | none => (Sign.Positive, s)
  let (_, s2) := consume_padding (Padding.resolve padding .Zero) 4 s1
  match try_consume_digits_in_range 1 6 (-100000) 100000 s2 with
  | some (v, r) => .ok ({ items with week_based_year := some (sign.mul v) }, r)
  | none => .error .InvalidYear

/-- `parse_j` from `src/format/date.rs`: ordinal day of the year: exactly
three digits (zero-default padding) parsed as `NonZeroU16` (so the digit
string `"000"` fails to parse). -/
def parse_j (items : ParsedItems) (s : List Char) (padding : Option Padding) :
    ParseResult (ParsedItems × List Char) :=
  match try_consume_exact_digits 3 (Padding.resolve padding .Zero) s with
  | some (v, r) =>
    if v = 0 then .error .InvalidDayOfYear
    else .ok ({ items with ordinal_day := some v }, r)
  | none => .error .InvalidDayOfYear

/-- `parse_m` from `src/format/date.rs`: month of the year: exactly two
digits (zero-default padding) parsed as `NonZeroU8` (so `"00"` fails). -/
def parse_m (items : ParsedItems) (s : List Char) (padding : Option Padding) :
    ParseResult (ParsedItems × List Char) :=
  match try_consume_exact_digits 2 (Padding.resolve padding .Zero) s with
  | some (v, r) =>
    if v = 0 then .error .InvalidMonth
    else .ok ({ items with month := some v }, r)
  | none => .error .InvalidMonth

/-- `parse_u` from `src/format/date.rs`: ISO weekday: match the stringified
numbers `1..` zipped against the Monday-first `WEEKDAYS` table. -/
def parse_u (items : ParsedItems) (s : List Char) :
    ParseResult (ParsedItems × List Char) :=
  match try_consume_first_match
      (((List.range 7).map (fun d => Nat.repr (d + 1))).zip WEEKDAYS) s with
  | some (w, r) => .ok ({ items with weekday := some w }, r)
  | none => .error .InvalidDayOfWeek

/-- `parse_U` from `src/format/date.rs`: Sunday-based week number: exactly
two digits (zero-default padding) range-checked against `0..=53`. -/
def parse_U (items : ParsedItems) (s : List Char) (padding : Option Padding) :
    ParseResult (ParsedItems × List Char) :=
  match try_consume_exact_digits_in_range 2 0 53 (Padding.resolve padding .Zero) s with
  | some (v, r) => .ok ({ items with sunday_week := some v }, r)
  | none => .error .InvalidWeek

/-- `parse_V` from `src/format/date.rs`: ISO week number: exactly two
digits (zero-default padding) range-checked against `1..=53`, then
converted through `NonZeroU8::new`. -/
def parse_V (items : ParsedItems) (s : List Char) (padding : Option Padding) :
    ParseResult (ParsedItems × List Char) :=
  match try_consume_exact_digits_in_range 2 1 53 (Padding.resolve padding .Zero) s with
  | some (v, r) => .ok ({ items with iso_week := nonZeroNew v }, r)
  | none => .error .InvalidWeek

/-- `parse_w` from `src/format/date.rs`: weekday number: the source rotates
the Monday-first `WEEKDAYS` table left by one position and matches the
stringified numbers `0..` zipped against the rotated table. -/
def parse_w (items : ParsedItems) (s : List Char) :
    ParseResult (ParsedItems × List Char) :=
  let weekdays := WEEKDAYS.rotate 1
  match try_consume_first_match
      (((List.range 7).map Nat.repr).zip weekdays) s with
  | some (w, r) => .ok ({ items with weekday := some w }, r)
  | none => .error .InvalidDayOfWeek

/-- `parse_W` from `src/format/date.rs`: Monday-based week number: exactly
two digits (zero-default padding) range-checked against `0..=53`. -/
def parse_W (items : ParsedItems) (s : List Char) (padding : Option Padding) :
    ParseResult (ParsedItems × List Char) :=
  match try_consume_exact_digits_in_range 2 0 53 (Padding.resolve padding .Zero) s with
  | some (v, r) => .ok ({ items with monday_week := some v }, r)
  | none => .error .InvalidWeek

/-- `parse_y` from `src/format/date.rs`: last two digits of the year:
`year = existing / 100 * 100 + parsed` with exactly two digits
(zero-default padding); a missing year defaults to 0 and `/` truncates. -/
def parse_y (items : ParsedItems) (s : List Char) (padding : Option Padding) :
    ParseResult (ParsedItems × List Char) :=
  match try_consume_exact_digits 2 (Padding.resolve padding .Zero) s with
  | some (v, r) =>
    .ok ({ items with
            year := some (Int.tdiv (items.year.getD 0) 100 * 100 + (v : Int)) }, r)
  | none => .error .InvalidYear

/-- `parse_Y` from `src/format/date.rs`: full year: an optional `+`/`-`
sign (defaulting to positive), up to four fill characters of zero-default
padding, then 1 to 6 digits range-checked against ±100000 and multiplied
by the sign. -/
def parse_Y (items : ParsedItems) (s : List Char) (padding : Option Padding) :
    ParseResult (ParsedItems × List Char) :=
  let (sign, s1) :=
    match try_consume_first_match [("+", Sign.Positive), ("-", Sign.Negative)] s with
    | some (sg, r) => (sg, r)
    | none => (Sign.Positive, s)
  let (_, s2) := consume_padding (Padding.resolve padding .Zero) 4 s1
  match try_consume_digits_in_range 1 6 (-100000) 100000 s2 with
  | some (v, r) => .ok ({ items with year := some (sign.mul v) }, r)
  | none => .error .InvalidYear

/-- Decimal digit characters of a natural number, most significant first;
structurally recursive on a fuel argument so that it reduces inside the
kernel (the fuel `n + 1` always exceeds the number of digits of `n`). -/
def natToDigitsAux : Nat → Nat → List Char
  | 0, _ => []
  | fuel + 1, n =>
    if n < 10 then [Nat.digitChar n]
    else natToDigitsAux fuel (n / 10) ++ [Nat.digitChar (n % 10)]

/-- Decimal digit characters of a natural number, most significant first. -/
def natToDigits (n : Nat) : List Char :=
  natToDigitsAux (n + 1) n

/-- Decimal rendering of an integer: a `-` sign for negative values, no
sign otherwise (matching Rust's `Display` for integers). -/
def intToDigits (v : Int) : List Char :=
  if v < 0 then '-' :: natToDigits v.natAbs else natToDigits v.toNat

/-- Left-pad a character list with the fill character to the given width. -/
def padLeft (fill : Char) (w : Nat) (l : List Char) : List Char :=
  List.replicate (w - l.length) fill ++ l

/-- Modelled from the spec: the shared padding/width policy applied by the
format functions (the source's `pad!`): render the value in decimal and
left-pad to the width with the fill character; zero padding is sign-aware
(the sign precedes the zeros, as in Rust's `{:0w}` formatting). -/
def pad_int (p : Padding) (w : Nat) (v : Int) : List Char :=
  match p with
  | .NoPad => intToDigits v
  | .Space => padLeft ' ' w (intToDigits v)
  | .Zero =>
    if v < 0 then '-' :: padLeft '0' (w - 1) (natToDigits v.natAbs)
    else padLeft '0' w (natToDigits v.toNat)

/-- `fmt_w` from `src/format/date.rs`: weekday number written as a plain
integer, using the US Sunday = 0 numbering. -/
def fmt_w (date : Date) : List Char :=
  natToDigits date.weekday.number_days_from_sunday

/-- `fmt_Y` from `src/format/date.rs`: full year: a leading `+` when the
year is at least 10000, then the year padded to width 4 with zero-default
padding. -/
def fmt_Y (date : Date) (padding : Option Padding) : List Char :=
  (if 10000 ≤ date.year then ['+'] else []) ++
    pad_int (Padding.resolve padding .Zero) 4 date.year

/-- Modelled from the spec: the formatter of the offset directive `%z`
(its source is not under `src/`): the sign of the offset (`+` for an
offset of zero or more seconds) followed by two-digit hours and two-digit
minutes of the absolute offset, as pinned by the tests in
`src/utc_offset.rs` (`"+0000"` for zero, `"-0001"` for minus one minute,
seconds truncated). -/
def fmt_z (offset : UtcOffset) : List Char :=
  let sign := if offset.seconds < 0 then '-' else '+'
  let total := offset.seconds.natAbs / 60
  sign :: (padLeft '0' 2 (natToDigits (total / 60)) ++
    padLeft '0' 2 (natToDigits (total % 60)))

/-- Modelled from the spec: the parser of the offset directive `%z` (its
source is not under `src/`): a required `+`/`-` sign, then two-digit hours
and two-digit minutes; the resulting offset is the signed number of
seconds, so `"+0000"` and `"-0000"` both yield the zero offset, as pinned
by the tests in `src/utc_offset.rs`. -/
def parse_z (items : ParsedItems) (s : List Char) :
    ParseResult (ParsedItems × List Char) :=
  match try_consume_first_match [("+", Sign.Positive), ("-", Sign.Negative)] s with
  | none => .error .InvalidOffset
  | some (sign, s1) =>
    match try_consume_exact_digits 2 .Zero s1 with
    | none => .error .InvalidOffset
    | some (h, s2) =>
      match try_consume_exact_digits 2 .Zero s2 with
      | none => .error .InvalidOffset
      | some (m, s3) =>
        .ok ({ items with
                offset := some ⟨sign.mul ((h : Int) * 3600 + (m : Int) * 60)⟩ }, s3)

/-- The directive specifiers embedded here, one per format/parse pair of
`src/format/date.rs` plus the offset directive `%z`. -/
inductive Directive where
  | a | A | b | B | C | d | e | g | G | j | m | u | U | V | w | W | y | Y | z
deriving Repr, DecidableEq

/-- Modelled from the spec: one token of a scanned template: literal text,
or a directive with an optional padding override. -/
inductive FmtItem where
  | lit (text : String)
  | dir (spec : Directive) (padding : Option Padding)
deriving Repr, DecidableEq

/-- Modelled from the spec: the parse-side directive dispatch of the
Directive Engine: invoke the matching parse function. -/
def runDirective (spec : Directive) (padding : Option Padding) (language : Language)
    (items : ParsedItems) (s : List Char) : ParseResult (ParsedItems × List Char) :=
  match spec with
  | .a => parse_a items s language
  | .A => parse_A items s language
  | .b => parse_b items s language
  | .B => parse_B items s language
  | .C => parse_C items s padding
  | .d => parse_d items s padding
  | .e => parse_e items s padding
  | .g => parse_g items s padding
  | .G => parse_G items s padding
  | .j => parse_j items s padding
  | .m => parse_m items s padding
  | .u => parse_u items s
  | .U => parse_U items s padding
  | .V => parse_V items s padding
  | .w => parse_w items s
  | .W => parse_W items s padding
  | .y => parse_y items s padding
  | .Y => parse_Y items s padding
  | .z => parse_z items s

/-- Modelled from the spec: the parse loop of the Directive Engine: for
every template token, match literal text verbatim or run the directive's
parse function, fail-fast and left-to-right. -/
def runParse (language : Language) :
    List FmtItem → ParsedItems → List Char → ParseResult (ParsedItems × List Char)
  | [], items, s => .ok (items, s)
  | .lit t :: rest, items, s =>
    if t.data.isPrefixOf s then runParse language rest items (s.drop t.data.length)
    else .error .UnexpectedCharacter
  | .dir spec p :: rest, items, s =>
    match runDirective spec p language items s with
    | .ok (items1, s1) => runParse language rest items1 s1
    | .error e => .error e

/-- Modelled from the spec: `parse(text, template, language)`: run the
template against the whole text from a fresh accumulator; any unmatched
trailing input aborts the whole parse. -/
def parseItems (s : List Char) (template : List FmtItem) (language : Language) :
    ParseResult ParsedItems :=
  match runParse language template ParsedItems.new s with
  | .ok (items, []) => .ok items
  | .ok (_, _ :: _) => .error .UnexpectedCharacter
  | .error e => .error e

/-- `UtcOffset::try_from_parsed_items` from `src/utc_offset.rs`: project
the offset field of the accumulator, failing with
`InsufficientInformation` when it is absent. -/
def UtcOffset.try_from_parsed_items (items : ParsedItems) : ParseResult UtcOffset :=
  match items.offset with
  | some o => .ok o
  | none => .error .InsufficientInformation

/-- `UtcOffset::parse` from `src/utc_offset.rs`: parse the items with the
language fixed to English, then finalize (the template-string scanner is
not provided, so templates are taken already scanned into items). -/
def UtcOffset.parse (s : List Char) (template : List FmtItem) : ParseResult UtcOffset :=
  match parseItems s template Language.en with
  | .ok items => UtcOffset.try_from_parsed_items items
  | .error e => .error e

/-- `UtcOffset::format` from `src/utc_offset.rs`, with the format side of
the engine modelled from the spec (`DeferredFormat` holding only the
offset): literals are copied and `%z` formats the offset; the language is
fixed to English (offsets render no locale-dependent names). -/
def UtcOffset.format (o : UtcOffset) (template : List FmtItem) : List Char :=
  template.foldl (fun acc it =>
    match it with
    | .lit t => acc ++ t.data
    | .dir .z _ => acc ++ fmt_z o
    | .dir _ _ => acc) []

/-!  Helper lemmas. -/

/-- `try_consume_first_match` returns `none` when no candidate text is a
prefix of the input. -/
theorem try_consume_first_match_eq_none {α : Type} (cands : List (String × α))
    (s : List Char) (h : ∀ t v, (t, v) ∈ cands → t.data.isPrefixOf s = false) :
    try_consume_first_match cands s = none := by
  induction cands with
  | nil => rfl
  | cons head tail ih =>
    obtain ⟨t, v⟩ := head
    have ht : t.data.isPrefixOf s = false := h t v (List.mem_cons_self _ _)
    simp only [try_consume_first_match, ht]
    simp only [Bool.false_eq_true, if_false]
    exact ih fun t' v' hm => h t' v' (List.mem_cons_of_mem _ hm)

/-- The digit prefix taken by `takeDigits` is nonempty exactly when the
input starts with a digit (for a positive width). -/
theorem takeDigits_pos_length {n : Nat} (s : List Char) (hn : 0 < n) :
    1 ≤ (takeDigits n s).1.length ↔ s.head?.any Char.isDigit = true := by
  match n, hn with
  | n + 1, _ =>
    cases s with
    | nil => simp [takeDigits]
    | cons c cs =>
      by_cases hc : c.isDigit
      · simp [takeDigits, hc]
      · simp [takeDigits, hc]

/-- Whether a parse result is a success. -/
def ParseResult.isOk {α : Type} : ParseResult α → Bool
  | .ok _ => true
  | .error _ => false

/-- The value of the first two characters of the input read as a two-digit
number, when they are both decimal digits. -/
def twoDigitValue (s : List Char) : Option Nat :=
  match s with
  | c1 :: c2 :: _ =>
    if c1.isDigit && c2.isDigit then some (digitVal c1 * 10 + digitVal c2) else none
  | _ => none

/-- The two-digit range-checked consumer under zero padding succeeds
exactly on a leading two-digit number within the range. -/
theorem try_consume_exact_digits_in_range_two (lo hi : Nat) (s : List Char) :
    try_consume_exact_digits_in_range 2 lo hi .Zero s =
      match twoDigitValue s with
      | some v => if lo ≤ v ∧ v ≤ hi then some (v, s.drop 2) else none
      | none => none := by
  match s with
  | [] => rfl
  | [c] =>
    by_cases hc : c.isDigit <;>
      simp [try_consume_exact_digits_in_range, try_consume_exact_digits,
        try_consume_digits, takeDigits, twoDigitValue, hc]
  | c1 :: c2 :: rest =>
    by_cases h1 : c1.isDigit <;> by_cases h2 : c2.isDigit <;>
      simp [try_consume_exact_digits_in_range, try_consume_exact_digits,
        try_consume_digits, takeDigits, twoDigitValue, digitsToNat, h1, h2]

/-!  Claim theorems. -/

/-- Claim C1: the claim states that `%w` uses US numbering
(Sunday = 0 .. Saturday = 6) and that `parse_w` maps the string `fmt_w`
writes back to the same weekday.  The code disagrees: `fmt_w` writes the
US number (Sunday gives "0"), but `parse_w` rotates the Monday-first table
left by one, so parsing "0" stores Tuesday (and parsing "6" stores
Monday), not Sunday.  This theorem evaluates the code at the failing
input. -/
theorem claim_C1_parse_w_rotated_wrong_way :
    fmt_w ⟨2021, .Sunday⟩ = ['0'] ∧
    parse_w ParsedItems.new ['0'] =
      .ok ({ ParsedItems.new with weekday := some .Tuesday }, []) ∧
    parse_w ParsedItems.new ['6'] =
      .ok ({ ParsedItems.new with weekday := some .Monday }, []) := by
  exact ⟨rfl, rfl, rfl⟩

/-- Claim C2: the claim states that parsing `%C%y` against "2021" yields
year 2021.  On the code it does not: `parse_C` greedily consumes 2 to 3
digits, so it takes "202" as the century and `%y` then fails on the single
remaining digit with `InvalidYear`.  The second half of the claim holds:
`parse_y` on "21" with a pre-existing year 1987 yields 1921.  This theorem
evaluates the code at both inputs. -/
theorem claim_C2_century_year_merge_eval :
    parseItems ("2021".data) [FmtItem.dir .C none, FmtItem.dir .y none] Language.en =
      .error .InvalidYear ∧
    parse_y { year := some 1987 } ("21".data) none =
      .ok ({ year := some 1921 }, []) := by
  exact ⟨rfl, rfl⟩

/-- Claim C7: formatting the zero offset with `%z` produces "+0000"
(beginning with `+`, never `-`), and parsing both "+0000" and "-0000" with
`%z` yields the same zero offset. -/
theorem claim_C7_zero_offset_sign :
    UtcOffset.format ⟨0⟩ [FmtItem.dir .z none] = "+0000".data ∧
    (UtcOffset.format ⟨0⟩ [FmtItem.dir .z none]).head? = some '+' ∧
    UtcOffset.parse ("+0000".data) [FmtItem.dir .z none] = .ok (UtcOffset.ofSeconds 0) ∧
    UtcOffset.parse ("-0000".data) [FmtItem.dir .z none] = .ok (UtcOffset.ofSeconds 0) := by
  exact ⟨rfl, rfl, rfl, rfl⟩

/-- Claim C10: `parse_d` on "00" succeeds at the directive level while the
parsed zero is dropped by the `NonZeroU8` conversion, so the day field is
left absent rather than an `InvalidDayOfMonth` error being raised; a whole
parse of `%d` against "00" therefore succeeds with an accumulator whose
day field is unpopulated. -/
theorem claim_C10_parse_d_zero_day_dropped :
    (∀ items : ParsedItems,
      parse_d items ("00".data) none = .ok ({ items with day := none }, [])) ∧
    parseItems ("00".data) [FmtItem.dir .d none] Language.en = .ok ParsedItems.new ∧
    ParsedItems.new.day = none := by
  exact ⟨fun items => rfl, rfl, rfl⟩

/-- Claim C3: for every prior accumulator state and successfully consumed
digit value `p`, the century directive sets
`year = p * 100 + existing_year.rem_euclid(100)`, the two-digit directives
set the field to `existing / 100 * 100 + p` (truncating division), and a
previously absent field contributes zero for the missing half (the
existing value defaults to 0). -/
theorem claim_C3_composite_merge_rule (items : ParsedItems) (s : List Char)
    (p : Nat) (r : List Char) :
    (∀ k s1, consume_padding .Zero 1 s = (k, s1) →
      try_consume_digits (2 - k) (3 - k) s1 = some (p, r) →
      parse_C items s none =
        .ok ({ items with
                year := some ((p : Int) * 100 + Int.emod (items.year.getD 0) 100) }, r)) ∧
    (try_consume_exact_digits 2 .Zero s = some (p, r) →
      parse_y items s none =
        .ok ({ items with
                year := some (Int.tdiv (items.year.getD 0) 100 * 100 + (p : Int)) }, r)) ∧
    (try_consume_exact_digits 2 .Zero s = some (p, r) →
      parse_g items s none =
        .ok ({ items with
                week_based_year :=
                  some (Int.tdiv (items.week_based_year.getD 0) 100 * 100 + (p : Int)) }, r)) := by
  refine ⟨?_, ?_, ?_⟩
  · intro k s1 h1 h2
    simp [parse_C, Padding.resolve, h1, h2]
  · intro h
    simp [parse_y, Padding.resolve, h]
  · intro h
    simp [parse_g, Padding.resolve, h]

/-- Witness for claim C3 at a concrete input: parsing "21" with `%y` into
an accumulator already holding year 1987 yields 1921. -/
theorem claim_C3_witness :
    parse_y { year := some 1987 } ("21".data) none =
      .ok ({ year := some (Int.tdiv ((some (1987 : Int)).getD 0) 100 * 100 + ((21 : Nat) : Int)) }, []) :=
  (claim_C3_composite_merge_rule { year := some 1987 } ("21".data) 21 []).2.1 (by decide)

/-- Claim C4: `parse_U` and `parse_W` succeed exactly when the next two
characters form a two-digit number in `0..=53`, `parse_V` exactly when
they form one in `1..=53`, and every failing case returns `InvalidWeek`
(the week field is only assigned on the success path, and on failure the
fail-fast engine discards the accumulator). -/
theorem claim_C4_week_range_enforcement (items : ParsedItems) (s : List Char) :
    ((parse_U items s none).isOk = true ↔
      ∃ v, twoDigitValue s = some v ∧ v ≤ 53) ∧
    ((parse_U items s none).isOk = false → parse_U items s none = .error .InvalidWeek) ∧
    ((parse_V items s none).isOk = true ↔
      ∃ v, twoDigitValue s = some v ∧ 1 ≤ v ∧ v ≤ 53) ∧
    ((parse_V items s none).isOk = false → parse_V items s none = .error .InvalidWeek) ∧
    ((parse_W items s none).isOk = true ↔
      ∃ v, twoDigitValue s = some v ∧ v ≤ 53) ∧
    ((parse_W items s none).isOk = false → parse_W items s none = .error .InvalidWeek) := by
  have hU : parse_U items s none =
      match try_consume_exact_digits_in_range 2 0 53 .Zero s with
      | some (v, r) => .ok ({ items with sunday_week := some v }, r)
      | none => .error .InvalidWeek := rfl
  have hV : parse_V items s none =
      match try_consume_exact_digits_in_range 2 1 53 .Zero s with
      | some (v, r) => .ok ({ items with iso_week := nonZeroNew v }, r)
      | none => .error .InvalidWeek := rfl
  have hW : parse_W items s none =
      match try_consume_exact_digits_in_range 2 0 53 .Zero s with
      | some (v, r) => .ok ({ items with monday_week := some v }, r)
      | none => .error .InvalidWeek := rfl
  rw [try_consume_exact_digits_in_range_two] at hU hV hW
  rcases hv : twoDigitValue s with _ | v
  · rw [hv] at hU hV hW
    simp [hU, hV, hW, ParseResult.isOk]
  · rw [hv] at hU hV hW
    refine ⟨?_, ?_, ?_, ?_, ?_, ?_⟩ <;>
      by_cases h53 : v ≤ 53 <;> by_cases h1 : 1 ≤ v <;>
        simp_all [ParseResult.isOk]

/-- Witness for claim C4 at a concrete input: parsing "54" with `%U` fails
with `InvalidWeek`. -/
theorem claim_C4_witness :
    parse_U ParsedItems.new ("54".data) none = .error .InvalidWeek :=
  (claim_C4_week_range_enforcement ParsedItems.new ("54".data)).2.1 (by decide)

/-- The input after the optional leading `+`/`-` sign consumed by the
signed year directives. -/
def afterSign (s : List Char) : List Char :=
  match try_consume_first_match [("+", Sign.Positive), ("-", Sign.Negative)] s with
  | some (_, r) => r
  | none => s

/-- The 1-to-6-digit consumer with the ±100000 range check succeeds
exactly when the input starts with a digit and the greedy digit prefix of
width at most 6 has value at most 100000. -/
theorem try_consume_digits_in_range_year (s2 : List Char) :
    try_consume_digits_in_range 1 6 (-100000) 100000 s2 =
      if s2.head?.any Char.isDigit = true ∧ digitsToNat (takeDigits 6 s2).1 ≤ 100000
      then some (digitsToNat (takeDigits 6 s2).1, (takeDigits 6 s2).2) else none := by
  have hlen := takeDigits_pos_length (n := 6) s2 (by omega)
  unfold try_consume_digits_in_range try_consume_digits
  rcases htd : takeDigits 6 s2 with ⟨d, r⟩
  rw [htd] at hlen
  by_cases hl : 1 ≤ d.length
  · have hh : s2.head?.any Char.isDigit = true := hlen.mp hl
    by_cases hv : digitsToNat d ≤ 100000
    · have hcast : ((-100000 : Int) ≤ (digitsToNat d : Int) ∧ (digitsToNat d : Int) ≤ 100000) := by
        constructor
        · exact le_trans (by omega) (Int.ofNat_nonneg _)
        · exact_mod_cast hv
      simp [hl, hh, hv, hcast]
    · have hcast : ¬ ((-100000 : Int) ≤ (digitsToNat d : Int) ∧ (digitsToNat d : Int) ≤ 100000) := by
        rintro ⟨-, h2⟩
        exact hv (by exact_mod_cast h2)
      simp [hl, hh, hv, hcast]
  · have hh : ¬ s2.head?.any Char.isDigit = true := fun h => hl (hlen.mpr h)
    simp [hl, hh]

/-- The sign consumed by the signed year directives, defaulting to
positive when no sign is present. -/
def signOf (s : List Char) : Sign :=
  match try_consume_first_match [("+", Sign.Positive), ("-", Sign.Negative)] s with
  | some (sg, _) => sg
  | none => .Positive

/-- Claim C5: `parse_Y` and `parse_G` accept an optional leading sign
followed, after any consumed zero padding, by 1 to 6 decimal digits, and
succeed exactly when the resulting magnitude is at most 100000; everything
else yields `InvalidYear`. -/
theorem claim_C5_variable_width_signed_year (items : ParsedItems) (s : List Char) :
    ((parse_Y items s none).isOk = true ↔
      ((consume_padding .Zero 4 (afterSign s)).2.head?.any Char.isDigit = true ∧
        digitsToNat (takeDigits 6 (consume_padding .Zero 4 (afterSign s)).2).1 ≤ 100000)) ∧
    ((parse_Y items s none).isOk = false → parse_Y items s none = .error .InvalidYear) ∧
    ((parse_G items s none).isOk = true ↔
      ((consume_padding .Zero 4 (afterSign s)).2.head?.any Char.isDigit = true ∧
        digitsToNat (takeDigits 6 (consume_padding .Zero 4 (afterSign s)).2).1 ≤ 100000)) ∧
    ((parse_G items s none).isOk = false → parse_G items s none = .error .InvalidYear) := by
  have key : ∀ (upd : Int → ParsedItems) (s2 : List Char),
      let res : ParseResult (ParsedItems × List Char) :=
        match try_consume_digits_in_range 1 6 (-100000) 100000 s2 with
        | some (v, r) => .ok (upd ((signOf s).mul v), r)
        | none => .error .InvalidYear
      (res.isOk = true ↔
        (s2.head?.any Char.isDigit = true ∧ digitsToNat (takeDigits 6 s2).1 ≤ 100000)) ∧
      (res.isOk = false → res = .error .InvalidYear) := by
    intro upd s2
    rw [try_consume_digits_in_range_year]
    by_cases hc : (s2.head?.any Char.isDigit = true ∧ digitsToNat (takeDigits 6 s2).1 ≤ 100000)
    · rw [if_pos hc]
      exact ⟨⟨fun _ => hc, fun _ => rfl⟩, fun h => absurd h (by simp [ParseResult.isOk])⟩
    · rw [if_neg hc]
      exact ⟨⟨fun h => absurd h (by simp [ParseResult.isOk]), fun h => absurd h hc⟩,
        fun _ => rfl⟩
  have hY : parse_Y items s none =
      match try_consume_digits_in_range 1 6 (-100000) 100000
          ((consume_padding .Zero 4 (afterSign s)).2) with
      | some (v, r) => .ok ({ items with year := some ((signOf s).mul v) }, r)
      | none => .error .InvalidYear := by
    rcases hsg : try_consume_first_match [("+", Sign.Positive), ("-", Sign.Negative)] s
      with _ | ⟨sg, s1⟩ <;>
      simp [parse_Y, afterSign, signOf, hsg, Padding.resolve]
  have hG : parse_G items s none =
      match try_consume_digits_in_range 1 6 (-100000) 100000
          ((consume_padding .Zero 4 (afterSign s)).2) with
      | some (v, r) => .ok ({ items with week_based_year := some ((signOf s).mul v) }, r)
      | none => .error .InvalidYear := by
    rcases hsg : try_consume_first_match [("+", Sign.Positive), ("-", Sign.Negative)] s
      with _ | ⟨sg, s1⟩ <;>
      simp [parse_G, afterSign, signOf, hsg, Padding.resolve]
  rw [hY, hG]
  exact ⟨(key (fun v => { items with year := some v }) _).1,
    (key (fun v => { items with year := some v }) _).2,
    (key (fun v => { items with week_based_year := some v }) _).1,
    (key (fun v => { items with week_based_year := some v }) _).2⟩

/-- Witness for claim C5 at a concrete input: parsing "+100001" with `%Y`
fails with `InvalidYear`. -/
theorem claim_C5_witness :
    parse_Y ParsedItems.new ("+100001".data) none = .error .InvalidYear :=
  (claim_C5_variable_width_signed_year ParsedItems.new ("+100001".data)).2.1 (by decide)

/-- `Nat.digitChar` of a value below ten is a decimal digit character. -/
theorem digitChar_isDigit (n : Nat) (h : n < 10) : (Nat.digitChar n).isDigit = true := by
  interval_cases n <;> decide

/-- A decimal digit character is never `+` and never `-`. -/
theorem isDigit_ne_sign {c : Char} (h : c.isDigit = true) : c ≠ '+' ∧ c ≠ '-' := by
  constructor <;> rintro rfl <;> exact absurd h (by decide)

/-- The digit rendering of a natural number is nonempty and starts with a
decimal digit character. -/
theorem natToDigitsAux_head (fuel n : Nat) (h : 0 < fuel) :
    ∃ c cs, natToDigitsAux fuel n = c :: cs ∧ c.isDigit = true := by
  induction fuel generalizing n with
  | zero => omega
  | succ fuel ih =>
    by_cases hn : n < 10
    · exact ⟨Nat.digitChar n, [], by simp [natToDigitsAux, hn], digitChar_isDigit n hn⟩
    · rcases fuel with _ | fuel
      · exact ⟨Nat.digitChar (n % 10), [], by simp [natToDigitsAux, hn],
          digitChar_isDigit _ (Nat.mod_lt n (by omega))⟩
      · obtain ⟨c, cs, hcs, hdig⟩ := ih (n / 10) (Nat.succ_pos _)
        refine ⟨c, cs ++ [Nat.digitChar (n % 10)], ?_, hdig⟩
        rw [natToDigitsAux, if_neg hn, hcs]
        rfl

/-- `natToDigits` is nonempty and starts with a decimal digit character. -/
theorem natToDigits_head (n : Nat) :
    ∃ c cs, natToDigits n = c :: cs ∧ c.isDigit = true :=
  natToDigitsAux_head (n + 1) n (Nat.succ_pos _)

/-- `intToDigits` is nonempty and starts with a minus sign or a decimal
digit character. -/
theorem intToDigits_head (v : Int) :
    ∃ c cs, intToDigits v = c :: cs ∧ (c = '-' ∨ c.isDigit = true) := by
  by_cases hv : v < 0
  · exact ⟨'-', natToDigits v.natAbs, by simp [intToDigits, hv], Or.inl rfl⟩
  · obtain ⟨c, cs, hcs, hdig⟩ := natToDigits_head v.toNat
    exact ⟨c, cs, by simp [intToDigits, hv, hcs], Or.inr hdig⟩

/-- The head of a left-padded nonempty list is the fill character or the
head of the list. -/
theorem padLeft_head (fill : Char) (w : Nat) (c : Char) (cs : List Char) :
    ∃ c2, (padLeft fill w (c :: cs)).head? = some c2 ∧ (c2 = fill ∨ c2 = c) := by
  unfold padLeft
  rcases hk : w - (c :: cs).length with _ | k
  · exact ⟨c, by simp, Or.inr rfl⟩
  · exact ⟨fill, by simp [List.replicate], Or.inl rfl⟩

/-- The padded decimal rendering of an integer never starts with `+`. -/
theorem pad_int_head_ne_plus (pd : Padding) (w : Nat) (v : Int) :
    (pad_int pd w v).head? ≠ some '+' := by
  cases pd with
  | NoPad =>
    obtain ⟨c, cs, hcs, hc⟩ := intToDigits_head v
    rw [pad_int, hcs]
    rcases hc with rfl | hdig
    · simp
    · simpa using (isDigit_ne_sign hdig).1
  | Space =>
    obtain ⟨c, cs, hcs, hc⟩ := intToDigits_head v
    rw [pad_int, hcs]
    obtain ⟨c2, hc2, hor⟩ := padLeft_head ' ' w c cs
    rw [hc2]
    rcases hor with rfl | rfl
    · simp
    · rcases hc with rfl | hdig
      · simp
      · simpa using (isDigit_ne_sign hdig).1
  | Zero =>
    rw [pad_int]
    by_cases hv : v < 0
    · rw [if_pos hv]
      simp
    · rw [if_neg hv]
      obtain ⟨c, cs, hcs, hdig⟩ := natToDigits_head v.toNat
      rw [hcs]
      obtain ⟨c2, hc2, hor⟩ := padLeft_head '0' w c cs
      rw [hc2]
      rcases hor with rfl | rfl
      · simp
      · simpa using (isDigit_ne_sign hdig).1

/-- Claim C6: `fmt_Y` writes a leading `+` exactly when the year is at
least 10000, and the year zero is formatted as "0000" under the default
zero padding, with no minus sign. -/
theorem claim_C6_full_year_sign (date : Date) (p : Option Padding) :
    ((fmt_Y date p).head? = some '+' ↔ 10000 ≤ date.year) ∧
    fmt_Y ⟨0, .Monday⟩ none = "0000".data ∧
    '-' ∉ fmt_Y ⟨0, .Monday⟩ none := by
  refine ⟨⟨?_, ?_⟩, rfl, by decide⟩
  · intro h
    by_contra hy
    rw [fmt_Y, if_neg hy] at h
    simp only [List.nil_append] at h
    exact pad_int_head_ne_plus _ 4 date.year h
  · intro hy
    rw [fmt_Y, if_pos hy]
    rfl

/-- Witness for claim C6 at a concrete input: the year 10000 is formatted
with a leading `+`. -/
theorem claim_C6_witness :
    (fmt_Y ⟨10000, .Monday⟩ none).head? = some '+' :=
  (claim_C6_full_year_sign ⟨10000, .Monday⟩ none).1.mpr (by decide)

/-- Every date directive (everything except `%z`) leaves the accumulator's
offset field unchanged when it succeeds. -/
theorem runDirective_offset_eq (spec : Directive) (p : Option Padding) (lang : Language)
    (items : ParsedItems) (s : List Char) (items1 : ParsedItems) (r : List Char)
    (hne : spec ≠ .z)
    (hok : runDirective spec p lang items s = .ok (items1, r)) :
    items1.offset = items.offset := by
  cases spec <;> try exact absurd rfl hne
  all_goals
    simp only [runDirective, parse_a, parse_A, parse_b, parse_B, parse_C, parse_d, parse_e,
      parse_g, parse_G, parse_j, parse_m, parse_u, parse_U, parse_V, parse_w, parse_W,
      parse_y, parse_Y] at hok
  all_goals repeat' split at hok
  all_goals
    first
    | (injection hok with h
       injection h with h1 h2
       subst h1
       rfl)
    | exact absurd hok (by simp)

/-- Running a template containing no `%z` directive leaves the offset
field of the accumulator unchanged. -/
theorem runParse_offset_eq (template : List FmtItem) (lang : Language)
    (items : ParsedItems) (s : List Char) (items1 : ParsedItems) (r : List Char)
    (hz : ∀ spec p, FmtItem.dir spec p ∈ template → spec ≠ .z)
    (hok : runParse lang template items s = .ok (items1, r)) :
    items1.offset = items.offset := by
  induction template generalizing items s with
  | nil =>
    simp only [runParse] at hok
    obtain ⟨h1, -⟩ := Prod.mk.injEq .. ▸ (Except.ok.inj hok)
    rw [← h1]
  | cons head tail ih =>
    cases head with
    | lit t =>
      simp only [runParse] at hok
      split at hok
      · exact ih items _ (fun spec p hm => hz spec p (List.mem_cons_of_mem _ hm)) hok
      · exact absurd hok (by simp)
    | dir spec p =>
      simp only [runParse] at hok
      split at hok
      case h_1 x items2 s2 heq =>
        have h1 : items2.offset = items.offset :=
          runDirective_offset_eq spec p lang items s items2 s2
            (hz spec p (List.mem_cons_self _ _)) heq
        have h2 : items1.offset = items2.offset :=
          ih items2 s2 (fun spec' p' hm => hz spec' p' (List.mem_cons_of_mem _ hm)) hok
        rw [h2, h1]
      case h_2 => exact absurd hok (by simp)

/-- Claim C8: `UtcOffset::try_from_parsed_items` returns the offset field
when present and `InsufficientInformation` when absent, depends on no
other field of the accumulator, and consequently a template with no
offset-producing directive always finalizes to
`InsufficientInformation`. -/
theorem claim_C8_offset_finalizer :
    (∀ (items : ParsedItems) (o : UtcOffset), items.offset = some o →
      UtcOffset.try_from_parsed_items items = .ok o) ∧
    (∀ items : ParsedItems, items.offset = none →
      UtcOffset.try_from_parsed_items items = .error .InsufficientInformation) ∧
    (∀ i1 i2 : ParsedItems, i1.offset = i2.offset →
      UtcOffset.try_from_parsed_items i1 = UtcOffset.try_from_parsed_items i2) ∧
    (∀ (template : List FmtItem) (lang : Language) (s : List Char)
      (items1 : ParsedItems) (r : List Char),
      (∀ spec p, FmtItem.dir spec p ∈ template → spec ≠ .z) →
      runParse lang template ParsedItems.new s = .ok (items1, r) →
      UtcOffset.try_from_parsed_items items1 = .error .InsufficientInformation) := by
  refine ⟨?_, ?_, ?_, ?_⟩
  · intro items o h
    simp [UtcOffset.try_from_parsed_items, h]
  · intro items h
    simp [UtcOffset.try_from_parsed_items, h]
  · intro i1 i2 h
    simp [UtcOffset.try_from_parsed_items, h]
  · intro template lang s items1 r hz hok
    have h0 : items1.offset = none := runParse_offset_eq template lang _ s items1 r hz hok
    simp [UtcOffset.try_from_parsed_items, h0]

/-- Witness for claim C8 at a concrete input: running the z-free template
`%d` over "07" succeeds, and finalizing the resulting accumulator to an
offset fails with `InsufficientInformation`. -/
theorem claim_C8_witness :
    UtcOffset.try_from_parsed_items { ParsedItems.new with day := some 7 } =
      .error .InsufficientInformation := by
  refine claim_C8_offset_finalizer.2.2.2 [FmtItem.dir .d none] Language.en
    ("07".data) { ParsedItems.new with day := some 7 } [] ?_ rfl
  intro spec p hm
  simp only [List.mem_singleton] at hm
  cases hm
  decide

/-- Claim C9: for each of the three languages, parsing a full or
abbreviated weekday name stores the weekday at the same Monday-first table
index, parsing a full or abbreviated month name stores the month
`index + 1`, and an input matching no name of the relevant table fails
with `InvalidDayOfWeek` (weekday directives) or `InvalidMonth` (month
directives). -/
theorem claim_C9_locale_name_tables :
    (∀ (l : Language) (i : Nat), i < 7 → ∀ items : ParsedItems,
      parse_A items (l.week_days.getD i "").data l =
        .ok ({ items with weekday := some (WEEKDAYS.getD i .Monday) }, [])) ∧
    (∀ (l : Language) (i : Nat), i < 7 → ∀ items : ParsedItems,
      parse_a items (l.short_week_days.getD i "").data l =
        .ok ({ items with weekday := some (WEEKDAYS.getD i .Monday) }, [])) ∧
    (∀ (l : Language) (i : Nat), i < 12 → ∀ items : ParsedItems,
      parse_B items (l.month_names.getD i "").data l =
        .ok ({ items with month := some (i + 1) }, [])) ∧
    (∀ (l : Language) (i : Nat), i < 12 → ∀ items : ParsedItems,
      parse_b items (l.short_month_names.getD i "").data l =
        .ok ({ items with month := some (i + 1) }, [])) ∧
    (∀ (l : Language) (items : ParsedItems) (s : List Char),
      (∀ t ∈ l.week_days, t.data.isPrefixOf s = false) →
      parse_A items s l = .error .InvalidDayOfWeek) ∧
    (∀ (l : Language) (items : ParsedItems) (s : List Char),
      (∀ t ∈ l.short_week_days, t.data.isPrefixOf s = false) →
      parse_a items s l = .error .InvalidDayOfWeek) ∧
    (∀ (l : Language) (items : ParsedItems) (s : List Char),
      (∀ t ∈ l.month_names, t.data.isPrefixOf s = false) →
      parse_B items s l = .error .InvalidMonth) ∧
    (∀ (l : Language) (items : ParsedItems) (s : List Char),
      (∀ t ∈ l.short_month_names, t.data.isPrefixOf s = false) →
      parse_b items s l = .error .InvalidMonth) := by
  refine ⟨?_, ?_, ?_, ?_, ?_, ?_, ?_, ?_⟩
  · intro l i h items
    cases l <;> interval_cases i <;> rfl
  · intro l i h items
    cases l <;> interval_cases i <;> rfl
  · intro l i h items
    cases l <;> interval_cases i <;> rfl
  · intro l i h items
    cases l <;> interval_cases i <;> rfl
  · intro l items s h
    have hnone : try_consume_first_match (l.week_days.zip WEEKDAYS) s = none := by
      refine try_consume_first_match_eq_none _ s fun t v hm => ?_
      exact h t (List.of_mem_zip hm).1
    simp [parse_A, hnone]
  · intro l items s h
    have hnone : try_consume_first_match (l.short_week_days.zip WEEKDAYS) s = none := by
      refine try_consume_first_match_eq_none _ s fun t v hm => ?_
      exact h t (List.of_mem_zip hm).1
    simp [parse_a, hnone]
  · intro l items s h
    have hnone : try_consume_first_match (monthCandidates l.month_names) s = none := by
      refine try_consume_first_match_eq_none _ s fun t v hm => ?_
      exact h t (List.of_mem_zip hm).1
    simp [parse_B, hnone]
  · intro l items s h
    have hnone : try_consume_first_match (monthCandidates l.short_month_names) s = none := by
      refine try_consume_first_match_eq_none _ s fun t v hm => ?_
      exact h t (List.of_mem_zip hm).1
    simp [parse_b, hnone]

/-- Witness for claim C9 at a concrete input: parsing the French full
weekday name "jeudi" (table index 3) stores Thursday. -/
theorem claim_C9_witness :
    parse_A ParsedItems.new ("jeudi".data) Language.fr =
      .ok ({ ParsedItems.new with weekday := some .Thursday }, []) :=
  claim_C9_locale_name_tables.1 Language.fr 3 (by omega) ParsedItems.new

end Time
